import Mathlib

/-
Verification of the incremental feed extractor in
src/notebooks/def_url_scraper.py (`url_scraper`).

The extraction loop (lines 105-210) is embedded shallowly:

  * a page snapshot is a list of `Fragment`s, one per `<article>` element
    returned by `soup.find_all("article")` (line 112);
  * each `Fragment` records exactly the pieces of the article's subtree that
    the extractor reads: the `<a>` descendants in document order, the first
    `<time>` descendant, the `data-tweet-id` attribute, the stripped text of
    the first `div[data-testid=like/retweet/reply]` and of the first div with
    a `lang` attribute;
  * wall-clock time is discrete: each loop iteration advances time by the
    scroll pause (the `time.sleep(SCROLL_PAUSE_TIME)` on line 108), and the
    remaining per-iteration work is treated as instantaneous;
  * the browser session is a function from the iteration index to the parsed
    snapshot that `driver.page_source` yields on that iteration;
  * the loop is given explicit fuel; `runLoop` returns `none` when the fuel
    is exhausted before the stall-timeout break on line 206 fires.
-/

namespace SMScraper

/-- An anchor (`<a>`) element as the extractor reads it: its `href` attribute
(`none` when absent), its raw visible text (`tag.get_text()`, used for the
`"#"` and `"@"` membership tests on lines 152 and 157) and its stripped
visible text (`tag.get_text(strip=True)`, the value stored on lines 150
and 155). -/
structure ATag where
  href : Option String
  text : String
  textStrip : String
deriving DecidableEq

/-- A `<time>` element; `datetime` is its machine-readable attribute.
`date_tag["datetime"]` (line 129) raises `KeyError` when the attribute is
absent, which the model reflects by making `created_at` fallible. -/
structure TimeTag where
  datetime : Option String
deriving DecidableEq

/-- One post fragment: an `<article>` element of the snapshot, reduced to the
parts `url_scraper` reads (lines 115-172). -/
structure Fragment where
  aTags : List ATag
  timeTag : Option TimeTag
  dataTweetId : Option String
  likeDiv : Option String
  retweetDiv : Option String
  replyDiv : Option String
  langDiv : Option String
deriving DecidableEq

/-- Containment of a character pattern in a character list, checked at every
suffix; Python's `pat in s` on strings. -/
def strHasAux (pat : List Char) : List Char → Bool
  | [] => pat.isEmpty
  | c :: t => pat.isPrefixOf (c :: t) || strHasAux pat t

/-- Python's substring test `pat in s`. -/
def strHas (s pat : String) : Bool := strHasAux pat.data s.data

/-- The `href` of the first `<a>` descendant whose href exists and contains
`"/status/"`: `tweet.find("a", href=lambda href: href and "/status/" in href)`
(lines 118-120).  Anchors without an `href` fail the lambda's truthiness test,
so searching the `filterMap` of hrefs is exact. -/
def statusHref (f : Fragment) : Option String :=
  (f.aTags.filterMap ATag.href).find? (fun h => strHas h "/status/")

/-- Line 121-125: `tweet_url = f"https://x.com{tweet_link_tag['href']}" if
tweet_link_tag else None`.  The origin is prefixed unconditionally. -/
def tweet_url (f : Fragment) : Option String :=
  (statusHref f).map (fun h => "https://x.com" ++ h)

/-- Lines 128-129: `created_at = date_tag["datetime"] if date_tag else
"Unknown"`.  A `<time>` element without a `datetime` attribute raises
`KeyError`, modelled as `Except.error ()`; this is the raising subexpression
of the per-fragment `try` block in this model. -/
def created_at (f : Fragment) : Except Unit String :=
  match f.timeTag with
  | none => Except.ok "Unknown"
  | some t =>
    match t.datetime with
    | some d => Except.ok d
    | none => Except.error ()

/-- Line 132: `tweet.get("data-tweet-id", "Unknown")`. -/
def tweet_id (f : Fragment) : String := f.dataTweetId.getD "Unknown"

/-- Lines 135-136: stripped text of the first `div[data-testid=like]`, else
`"Unknown"`. -/
def likes (f : Fragment) : String := f.likeDiv.getD "Unknown"

/-- Lines 138-141: stripped text of the first `div[data-testid=retweet]`,
else `"Unknown"`. -/
def retweets (f : Fragment) : String := f.retweetDiv.getD "Unknown"

/-- Lines 143-146: stripped text of the first `div[data-testid=reply]`, else
`"Unknown"`. -/
def replies (f : Fragment) : String := f.replyDiv.getD "Unknown"

/-- Lines 149-153: stripped texts of the `<a>` descendants whose raw text
contains `"#"`, in document order. -/
def hashtags (f : Fragment) : List String :=
  (f.aTags.filter (fun a => strHas a.text "#")).map ATag.textStrip

/-- Lines 154-158: stripped texts of the `<a>` descendants whose raw text
contains `"@"`, in document order. -/
def mentions (f : Fragment) : List String :=
  (f.aTags.filter (fun a => strHas a.text "@")).map ATag.textStrip

/-- Lines 161-165: hrefs of the `<a>` descendants whose href (defaulted to
`""`) contains `"http"`, taken verbatim, in document order. -/
def tweet_links (f : Fragment) : List String :=
  (f.aTags.filter (fun a => strHas (a.href.getD "") "http")).map
    (fun a => a.href.getD "Unknown")

/-- Lines 168-172: stripped text of the first div carrying a `lang`
attribute, else `"Unknown"`. -/
def tweet_text (f : Fragment) : String := f.langDiv.getD "Unknown"

/-- One row of the tabular result: the dict appended on lines 176-189.
`hashtags`, `mentions` and `urls` are stored as the comma-joined strings the
code builds with `", ".join(...)` (lines 185-187). -/
structure Record where
  url : String
  created_at : String
  text : String
  tweet_id : String
  likes : String
  retweets : String
  replies : String
  hashtags : String
  mentions : String
  urls : String
deriving DecidableEq

/-- The dict of lines 176-189, for a fragment whose url resolved to `u` and
whose creation time read `ca`. -/
def mkRecord (f : Fragment) (u ca : String) : Record :=
  { url := u
    created_at := ca
    text := tweet_text f
    tweet_id := tweet_id f
    likes := likes f
    retweets := retweets f
    replies := replies f
    hashtags := String.intercalate ", " (hashtags f)
    mentions := String.intercalate ", " (mentions f)
    urls := String.intercalate ", " (tweet_links f) }

/-- The body of the per-fragment `try` block (lines 116-189), up to but not
including the dedup test against the accumulator: `Except.error ()` when a
field extraction raises (the whole fragment is then skipped by the
`except ... continue` on lines 190-192), `Except.ok none` when `tweet_url`
is `None` (the fragment yields no row), and `Except.ok (some r)` otherwise. -/
def extractFragment (f : Fragment) : Except Unit (Option Record) :=
  match created_at f with
  | Except.error e => Except.error e
  | Except.ok ca =>
    match tweet_url f with
    | none => Except.ok none
    | some u => Except.ok (some (mkRecord f u ca))

/-- The rows a snapshot's fragments yield before the dedup test, in fragment
order: erroring fragments and fragments without a url contribute nothing. -/
def extractedRecords (frags : List Fragment) : List Record :=
  frags.filterMap (fun f =>
    match extractFragment f with
    | Except.ok (some r) => some r
    | _ => none)

/-- Line 175 membership test `tweet_url in tweet_df["Tweet URL"].values`. -/
def urlMem (df : List Record) (u : String) : Bool := df.any (fun r => r.url == u)

/-- The `new_tweet_data` list built by the fragment loop (lines 114-192): the
extracted rows whose url is not already a key of `tweet_df`.  The membership
test on line 175 reads `tweet_df`, which is reassigned only after the
fragment loop (line 199), so the test never sees rows appended earlier in the
same snapshot; the filter over the fixed `df` is therefore exact. -/
def new_tweet_data (df : List Record) (frags : List Fragment) : List Record :=
  (extractedRecords frags).filter (fun r => !urlMem df r.url)

/-- Lines 195-199: `tweet_df = pd.concat([tweet_df, new_tweet_df])` when the
new rows are nonempty; appending nothing otherwise, so always the append. -/
def stepAccum (df : List Record) (frags : List Fragment) : List Record :=
  df ++ new_tweet_data df frags

/-- Line 97: the columns of the initial empty `tweet_df`. -/
def initial_columns : List String := ["Tweet URL", "Created At", "Text"]

/-- The column order of the dicts appended on lines 176-189, hence of any
nonempty `new_tweet_df`. -/
def record_columns : List String :=
  ["Tweet URL", "Created At", "Text", "Tweet ID", "Likes", "Retweets",
   "Replies", "Hashtags", "Mentions", "URLs"]

/-- Column union as `pd.concat` performs it on line 199: the first frame's
columns, then the later frame's columns not already present, in order. -/
def unionColumns (c₁ c₂ : List String) : List String :=
  c₁ ++ c₂.filter (fun c => !c₁.contains c)

/-- Line 100: `SCROLL_PAUSE_TIME = 5`. -/
def SCROLL_PAUSE_TIME : Nat := 5

/-- Line 102: `max_wait_time = 60`. -/
def max_wait_time : Nat := 60

/-- Line 107: the fixed pixel offset of `window.scrollBy(0, 3000)`. -/
def scroll_step : Nat := 3000

/-- The formal parameters of `url_scraper` (line 36):
`def url_scraper(target_url, env_suffix)`. -/
def url_scraper_params : List String := ["target_url", "env_suffix"]

/-- The loop state: `tweet_df` with its column list, `prev_tweets_count`,
`start_time`, and the current discrete time. -/
structure LoopState where
  tweet_df : List Record
  columns : List String
  prev_tweets_count : Nat
  start_time : Nat
  now : Nat
deriving DecidableEq

/-- One iteration of the `while True` loop (lines 105-210) on snapshot
`frags`: sleep `pause`, extract and merge, then the stall check of lines
202-210.  Returns the next state and whether the `break` on line 206 fired. -/
def iterate (pause maxWait : Nat) (frags : List Fragment) (s : LoopState) :
    LoopState × Bool :=
  let now := s.now + pause
  let newData := new_tweet_data s.tweet_df frags
  let df := s.tweet_df ++ newData
  let cols := if newData.isEmpty then s.columns
              else unionColumns s.columns record_columns
  if df.length = s.prev_tweets_count then
    if maxWait ≤ now - s.start_time then
      (⟨df, cols, s.prev_tweets_count, s.start_time, now⟩, true)
    else
      (⟨df, cols, df.length, s.start_time, now⟩, false)
  else
    (⟨df, cols, df.length, now, now⟩, false)

/-- The loop, with explicit fuel; `session i` is the parsed snapshot the
`i`-th iteration reads on line 111.  `none` means the fuel ran out before the
stall break fired. -/
def runLoop (pause maxWait : Nat) (session : Nat → List Fragment) :
    Nat → Nat → LoopState → Option LoopState
  | 0, _, _ => none
  | Nat.succ fuel, i, s =>
    match iterate pause maxWait (session i) s with
    | (s', true) => some s'
    | (s', false) => runLoop pause maxWait session fuel (i + 1) s'

/-- Lines 96-103: empty `tweet_df` with the three initial columns,
`prev_tweets_count = 0`, `start_time = now = t₀`. -/
def initState (t₀ : Nat) : LoopState := ⟨[], initial_columns, 0, t₀, t₀⟩

/-- The loop exactly as `url_scraper` runs it: pause and stall timeout are
the fixed constants of lines 100 and 102, never parameters. -/
def url_scraper_loop (session : Nat → List Fragment) (t₀ fuel : Nat) :
    Option LoopState :=
  runLoop SCROLL_PAUSE_TIME max_wait_time session fuel 0 (initState t₀)

/-- Observable control-flow events of `url_scraper`: WebDriver creation
(line 48), `driver.quit()` (line 215), normal return (line 212), exception
propagation. -/
inductive Event where
  | driverCreated
  | driverQuit
  | returned
  | raised
deriving DecidableEq

/-- The exit paths of `url_scraper`: the credential `ValueError` of lines
43-44 (before the driver exists), the normal return of the accumulated
DataFrame, or an exception raised anywhere inside the `try` block of lines
50-212 (login waits, navigation, parsing, the loop). -/
inductive ExitPath where
  | credentialsMissing
  | loopReturn (final : LoopState)
  | sessionException

/-- The event trace of each exit path, following the `try`/`finally`
structure of lines 50-215: the driver is created on line 48; on both paths
that reach the `try` block, the `finally` runs `driver.quit()` before the
return value or the exception reaches the caller. -/
def url_scraper_events : ExitPath → List Event
  | ExitPath.credentialsMissing => [Event.raised]
  | ExitPath.loopReturn _ =>
      [Event.driverCreated, Event.driverQuit, Event.returned]
  | ExitPath.sessionException =>
      [Event.driverCreated, Event.driverQuit, Event.raised]

/-! Fixtures: concrete fragments used by witnesses and counterexamples. -/

/-- A permalink anchor with a relative target. -/
def statusLink : ATag := ⟨some "/u/a/status/1", "hello", "hello"⟩

/-- A fragment with a resolvable url and no other elements. -/
def fragA : Fragment := ⟨[statusLink], none, none, none, none, none, none⟩

/-- A fragment with a resolvable url whose `<time>` element lacks the
`datetime` attribute, so reading it raises. -/
def badTimeFrag : Fragment :=
  ⟨[⟨some "/u/a/status/9", "", ""⟩], some ⟨none⟩, none, none, none, none, none⟩

/-- A fragment whose permalink target is already an absolute URL. -/
def absFrag : Fragment :=
  ⟨[⟨some "https://x.com/u/b/status/2", "", ""⟩], none, none, none, none, none, none⟩

/-! Helper lemmas about the merge step. -/

lemma urlMem_append (df₁ df₂ : List Record) (u : String) :
    urlMem (df₁ ++ df₂) u = (urlMem df₁ u || urlMem df₂ u) :=
  List.any_append

lemma urlMem_of_mem {df : List Record} {r : Record} (h : r ∈ df) :
    urlMem df r.url = true :=
  List.any_eq_true.mpr ⟨r, h, beq_self_eq_true r.url⟩

lemma new_tweet_data_nil (frags : List Fragment) :
    new_tweet_data [] frags = extractedRecords frags := by
  apply List.filter_eq_self.mpr
  intro r _
  rfl

lemma stepAccum_nil (frags : List Fragment) :
    stepAccum [] frags = extractedRecords frags := by
  rw [stepAccum, new_tweet_data_nil, List.nil_append]

lemma mem_new_tweet_data {df : List Record} {frags : List Fragment} {r : Record} :
    r ∈ new_tweet_data df frags ↔
      r ∈ extractedRecords frags ∧ urlMem df r.url = false := by
  simp [new_tweet_data, List.mem_filter]

lemma urlMem_stepAccum_of_extracted {df : List Record} {frags : List Fragment}
    {r : Record} (h : r ∈ extractedRecords frags) :
    urlMem (stepAccum df frags) r.url = true := by
  rw [stepAccum, urlMem_append]
  cases hdf : urlMem df r.url with
  | true => simp
  | false =>
    have hmem : r ∈ new_tweet_data df frags := mem_new_tweet_data.mpr ⟨h, hdf⟩
    simp [urlMem_of_mem hmem]

lemma new_tweet_data_stepAccum (df : List Record) (frags : List Fragment) :
    new_tweet_data (stepAccum df frags) frags = [] := by
  apply List.filter_eq_nil_iff.mpr
  intro r hr
  simp [urlMem_stepAccum_of_extracted hr]

/-! Helper lemmas about one loop iteration. -/

lemma iterate_fst_tweet_df (pause maxWait : Nat) (frags : List Fragment)
    (s : LoopState) :
    (iterate pause maxWait frags s).1.tweet_df =
      s.tweet_df ++ new_tweet_data s.tweet_df frags := by
  simp only [iterate]
  split
  · split <;> rfl
  · rfl

lemma iterate_fst_now (pause maxWait : Nat) (frags : List Fragment)
    (s : LoopState) :
    (iterate pause maxWait frags s).1.now = s.now + pause := by
  simp only [iterate]
  split
  · split <;> rfl
  · rfl

lemma iterate_fst_columns (pause maxWait : Nat) (frags : List Fragment)
    (s : LoopState) :
    (iterate pause maxWait frags s).1.columns =
      (if (new_tweet_data s.tweet_df frags).isEmpty then s.columns
       else unionColumns s.columns record_columns) := by
  simp only [iterate]
  split
  · split <;> rfl
  · rfl

/-! Helper lemmas about the whole loop. -/

lemma runLoop_invariant (pause maxWait : Nat) (session : Nat → List Fragment)
    (P : LoopState → Prop)
    (hstep : ∀ i s, P s → P (iterate pause maxWait (session i) s).1) :
    ∀ (fuel i : Nat) (s final : LoopState),
      runLoop pause maxWait session fuel i s = some final → P s → P final := by
  intro fuel
  induction fuel with
  | zero =>
    intro i s final hrun
    simp [runLoop] at hrun
  | succ n ih =>
    intro i s final hrun hP
    cases hit : iterate pause maxWait (session i) s with
    | mk s' b =>
      simp only [runLoop, hit] at hrun
      have hP' : P s' := by
        have := hstep i s hP
        rwa [hit] at this
      cases b with
      | true =>
        cases hrun
        exact hP'
      | false =>
        exact ih (i + 1) s' final hrun hP'

lemma runLoop_keeps (pause maxWait : Nat) (session : Nat → List Fragment) :
    ∀ (fuel i : Nat) (s final : LoopState),
      runLoop pause maxWait session fuel i s = some final →
      s.tweet_df <+: final.tweet_df := by
  intro fuel
  induction fuel with
  | zero =>
    intro i s final hrun
    simp [runLoop] at hrun
  | succ n ih =>
    intro i s final hrun
    cases hit : iterate pause maxWait (session i) s with
    | mk s' b =>
      have hdfs : s.tweet_df <+: s'.tweet_df := by
        have h1 := iterate_fst_tweet_df pause maxWait (session i) s
        rw [hit] at h1
        rw [h1]
        exact List.prefix_append _ _
      simp only [runLoop, hit] at hrun
      cases b with
      | true =>
        cases hrun
        exact hdfs
      | false =>
        exact hdfs.trans (ih (i + 1) s' final hrun)

/-- An iteration whose snapshot contributes no new row: the accumulator and
the columns are unchanged, the stall check of lines 202-208 runs with the old
`start_time`, and `start_time` is not reset. -/
lemma iterate_stalled (pause maxWait : Nat) (frags : List Fragment)
    (s : LoopState)
    (h1 : new_tweet_data s.tweet_df frags = [])
    (h2 : s.prev_tweets_count = s.tweet_df.length) :
    iterate pause maxWait frags s =
      if maxWait ≤ s.now + pause - s.start_time then
        (⟨s.tweet_df, s.columns, s.prev_tweets_count, s.start_time,
          s.now + pause⟩, true)
      else
        (⟨s.tweet_df, s.columns, s.tweet_df.length, s.start_time,
          s.now + pause⟩, false) := by
  simp only [iterate, h1, List.append_nil, List.isEmpty_nil, if_true,
    if_pos h2.symm]

/-- Once the accumulator has absorbed a constant snapshot, the loop keeps the
accumulator and columns unchanged and fires the stall break no later than
`maxWait + pause` after the later of the current time and the last-growth
deadline.  Fuel `fuel + 1` iterations suffice when `fuel` covers the
remaining wait (each iteration advances time by `pause ≥ 1`). -/
lemma runLoop_stall (pause maxWait : Nat) (hp : 0 < pause)
    (session : Nat → List Fragment) (frags : List Fragment)
    (hsess : ∀ j, session j = frags) :
    ∀ (fuel i : Nat) (s : LoopState),
      new_tweet_data s.tweet_df frags = [] →
      s.prev_tweets_count = s.tweet_df.length →
      s.start_time ≤ s.now →
      s.start_time + maxWait ≤ s.now + pause + fuel →
      ∃ final, runLoop pause maxWait session (fuel + 1) i s = some final ∧
        final.tweet_df = s.tweet_df ∧ final.columns = s.columns ∧
        final.now ≤ max s.now (s.start_time + maxWait) + pause := by
  intro fuel
  induction fuel with
  | zero =>
    intro i s h1 h2 h3 h4
    have hbr : maxWait ≤ s.now + pause - s.start_time := by omega
    refine ⟨⟨s.tweet_df, s.columns, s.prev_tweets_count, s.start_time,
      s.now + pause⟩, ?_, rfl, rfl, ?_⟩
    · simp only [runLoop, hsess i, iterate_stalled pause maxWait frags s h1 h2,
        if_pos hbr]
    · show s.now + pause ≤ max s.now (s.start_time + maxWait) + pause
      omega
  | succ n ih =>
    intro i s h1 h2 h3 h4
    by_cases hbr : maxWait ≤ s.now + pause - s.start_time
    · refine ⟨⟨s.tweet_df, s.columns, s.prev_tweets_count, s.start_time,
        s.now + pause⟩, ?_, rfl, rfl, ?_⟩
      · simp only [runLoop, hsess i,
          iterate_stalled pause maxWait frags s h1 h2, if_pos hbr]
      · show s.now + pause ≤ max s.now (s.start_time + maxWait) + pause
        omega
    · have hrun : runLoop pause maxWait session (n + 1 + 1) i s =
          runLoop pause maxWait session (n + 1) (i + 1)
            ⟨s.tweet_df, s.columns, s.tweet_df.length, s.start_time,
             s.now + pause⟩ := by
        simp only [runLoop, hsess i,
          iterate_stalled pause maxWait frags s h1 h2, if_neg hbr]
      have h3' : s.start_time ≤ s.now + pause := by omega
      have h4' : s.start_time + maxWait ≤ (s.now + pause) + pause + n := by
        omega
      obtain ⟨final, hfin, hdf, hcols, hnow⟩ :=
        ih (i + 1)
          ⟨s.tweet_df, s.columns, s.tweet_df.length, s.start_time,
           s.now + pause⟩ h1 rfl h3' h4'
      refine ⟨final, ?_, hdf, hcols, ?_⟩
      · rw [hrun]
        exact hfin
      · simp only at hnow
        omega

/-! Claim C3: stall termination on a constant snapshot. -/

/-- C3.  If the session's snapshot never changes after the first iteration,
the loop terminates (fuel `maxWait + 2` suffices) with the accumulator equal
to exactly the records extracted from the first snapshot, and the break fires
no later than `maxWait + pause` after the first snapshot was taken at
`t₀ + pause`. -/
theorem stall_termination (pause maxWait t₀ : Nat) (hp : 0 < pause)
    (session : Nat → List Fragment) (hconst : ∀ i, session i = session 0) :
    ∃ final,
      runLoop pause maxWait session (maxWait + 2) 0 (initState t₀) =
        some final ∧
      final.tweet_df = extractedRecords (session 0) ∧
      final.now ≤ (t₀ + pause) + (maxWait + pause) := by
  by_cases hE : extractedRecords (session 0) = []
  · have h1 : new_tweet_data (initState t₀).tweet_df (session 0) = [] := by
      show new_tweet_data [] (session 0) = []
      rw [new_tweet_data_nil, hE]
    obtain ⟨final, hrun, hdf, hcols, hnow⟩ :=
      runLoop_stall pause maxWait hp session (session 0) hconst
        (maxWait + 1) 0 (initState t₀) h1 rfl (le_refl t₀)
        (by show t₀ + maxWait ≤ t₀ + pause + (maxWait + 1); omega)
    refine ⟨final, hrun, ?_, ?_⟩
    · rw [hdf, hE]
      rfl
    · have hmax : max (initState t₀).now ((initState t₀).start_time + maxWait)
          = t₀ + maxWait := by
        show max t₀ (t₀ + maxWait) = t₀ + maxWait
        omega
      rw [hmax] at hnow
      omega
  · have hEmpty : (extractedRecords (session 0)).isEmpty = false := by
      cases hcase : (extractedRecords (session 0)).isEmpty with
      | false => rfl
      | true => exact absurd (List.isEmpty_iff.mp hcase) hE
    have hlen : ¬ (extractedRecords (session 0)).length = 0 :=
      fun h => hE (List.length_eq_zero.mp h)
    have hit : iterate pause maxWait (session 0) (initState t₀) =
        (⟨extractedRecords (session 0),
          unionColumns initial_columns record_columns,
          (extractedRecords (session 0)).length, t₀ + pause, t₀ + pause⟩,
         false) := by
      simp only [iterate, initState, new_tweet_data_nil, List.nil_append,
        hEmpty, Bool.false_eq_true, if_false, if_neg hlen]
    have hstep : runLoop pause maxWait session (maxWait + 2) 0 (initState t₀) =
        runLoop pause maxWait session (maxWait + 1) 1
          ⟨extractedRecords (session 0),
           unionColumns initial_columns record_columns,
           (extractedRecords (session 0)).length, t₀ + pause, t₀ + pause⟩ := by
      show runLoop pause maxWait session (maxWait + 1 + 1) 0 (initState t₀) = _
      simp only [runLoop, hit]
    have h1 : new_tweet_data (extractedRecords (session 0)) (session 0) = [] := by
      have := new_tweet_data_stepAccum [] (session 0)
      rwa [stepAccum_nil] at this
    obtain ⟨final, hrun, hdf, hcols, hnow⟩ :=
      runLoop_stall pause maxWait hp session (session 0) hconst
        maxWait 1
        ⟨extractedRecords (session 0),
         unionColumns initial_columns record_columns,
         (extractedRecords (session 0)).length, t₀ + pause, t₀ + pause⟩
        h1 rfl (le_refl _)
        (by show (t₀ + pause) + maxWait ≤ (t₀ + pause) + pause + maxWait; omega)
    refine ⟨final, ?_, hdf, ?_⟩
    · rw [hstep]
      exact hrun
    · simp only at hnow
      omega

/-- C3 witness: a concrete constant session containing one fragment; the
loop with the source's constants stops within `60 + 5` of the first
snapshot with exactly that fragment's record. -/
theorem stall_termination_witness :
    ∃ final,
      runLoop 5 60 (fun _ => [fragA]) (60 + 2) 0 (initState 0) = some final ∧
      final.tweet_df = extractedRecords ((fun _ => [fragA]) 0) ∧
      final.now ≤ (0 + 5) + (60 + 5) :=
  stall_termination 5 60 0 (by decide) (fun _ => [fragA]) (fun _ => rfl)

/-! Claim C6: monotone, append-only growth. -/

/-- C6.  Across any loop iteration the old accumulator is a prefix of the
new one — no row is removed, reordered or mutated — and its size never
decreases. -/
theorem accumulator_monotone (pause maxWait : Nat) (frags : List Fragment)
    (s : LoopState) :
    s.tweet_df <+: (iterate pause maxWait frags s).1.tweet_df ∧
    s.tweet_df.length ≤ (iterate pause maxWait frags s).1.tweet_df.length := by
  rw [iterate_fst_tweet_df]
  refine ⟨List.prefix_append _ _, ?_⟩
  rw [List.length_append]
  exact Nat.le_add_right _ _

/-! Claim C7: order preservation. -/

/-- C7.  A merge appends, after the whole old accumulator, a sublist of the
snapshot's extracted rows (hence in fragment order), each with a url not yet
in the accumulator; and across iterations the accumulator at any earlier
point is a prefix of the final one, so rows first observed earlier precede
rows first observed later. -/
theorem order_preservation :
    (∀ (df : List Record) (frags : List Fragment), ∃ newRecs,
        stepAccum df frags = df ++ newRecs ∧
        List.Sublist newRecs (extractedRecords frags) ∧
        ∀ r ∈ newRecs, urlMem df r.url = false) ∧
    (∀ (pause maxWait : Nat) (session : Nat → List Fragment)
        (fuel i : Nat) (s final : LoopState),
        runLoop pause maxWait session fuel i s = some final →
        s.tweet_df <+: final.tweet_df) := by
  constructor
  · intro df frags
    refine ⟨new_tweet_data df frags, rfl, List.filter_sublist _, ?_⟩
    intro r hr
    exact (mem_new_tweet_data.mp hr).2
  · intro pause maxWait session fuel i s final hrun
    exact runLoop_keeps pause maxWait session fuel i s final hrun

/-- C7 witness: the second conjunct applied to a concrete one-iteration run
on an empty snapshot. -/
theorem order_preservation_witness :
    (initState 0).tweet_df <+:
      LoopState.tweet_df ⟨[], initial_columns, 0, 0, 1⟩ :=
  order_preservation.2 1 0 (fun _ => []) 1 0 (initState 0)
    ⟨[], initial_columns, 0, 0, 1⟩ (by decide)

/-! Claim C1: the dedup invariant. -/

/-- C1 counterexample: one snapshot holding two fragments that resolve to
the same url yields an accumulator with that url twice — the membership
test of line 175 consults only `tweet_df`, which is reassigned only after
the fragment loop, so it never sees rows appended earlier in the same
snapshot. -/
theorem dedup_counterexample :
    ¬ ((stepAccum [] [fragA, fragA]).map Record.url).Nodup := by decide

/-- C1 amended: a row is appended only if its url is not already a key of
the accumulator built in earlier iterations; consequently the returned
accumulator has pairwise-distinct urls whenever no single snapshot's
extracted rows repeat a url (the intra-snapshot case of the original claim
is exactly what fails). -/
theorem dedup_amended :
    (∀ (df : List Record) (frags : List Fragment) (r : Record),
        r ∈ new_tweet_data df frags → urlMem df r.url = false) ∧
    (∀ (pause maxWait : Nat) (session : Nat → List Fragment)
        (fuel t₀ : Nat) (final : LoopState),
        runLoop pause maxWait session fuel 0 (initState t₀) = some final →
        (∀ j, ((extractedRecords (session j)).map Record.url).Nodup) →
        (final.tweet_df.map Record.url).Nodup) := by
  constructor
  · intro df frags r hr
    exact (mem_new_tweet_data.mp hr).2
  · intro pause maxWait session fuel t₀ final hrun hsnap
    refine runLoop_invariant pause maxWait session
      (fun s => (s.tweet_df.map Record.url).Nodup) ?_ fuel 0
      (initState t₀) final hrun List.nodup_nil
    intro i s hP
    rw [iterate_fst_tweet_df]
    show ((stepAccum s.tweet_df (session i)).map Record.url).Nodup
    rw [stepAccum, List.map_append, List.nodup_append]
    refine ⟨hP, ?_, ?_⟩
    · exact List.Nodup.sublist
        ((List.filter_sublist _).map Record.url) (hsnap i)
    · intro u hu1 hu2
      obtain ⟨r, hr, hru⟩ := List.mem_map.mp hu2
      obtain ⟨r', hr', hru'⟩ := List.mem_map.mp hu1
      have hfalse : urlMem s.tweet_df r.url = false :=
        (mem_new_tweet_data.mp hr).2
      have htrue : urlMem s.tweet_df r.url = true := by
        rw [hru, ← hru']
        exact urlMem_of_mem hr'
      rw [hfalse] at htrue
      exact Bool.false_ne_true htrue

/-- C1 amended witness: both conjuncts applied at a concrete snapshot and a
concrete two-iteration run. -/
theorem dedup_amended_witness :
    urlMem [] (mkRecord fragA "https://x.com/u/a/status/1" "Unknown").url
      = false ∧
    ((LoopState.tweet_df
        ⟨[mkRecord fragA "https://x.com/u/a/status/1" "Unknown"],
         unionColumns initial_columns record_columns, 1, 1, 2⟩).map
      Record.url).Nodup :=
  ⟨dedup_amended.1 [] [fragA] _ (by decide),
   dedup_amended.2 1 0 (fun _ => [fragA]) 2 0
     ⟨[mkRecord fragA "https://x.com/u/a/status/1" "Unknown"],
      unionColumns initial_columns record_columns, 1, 1, 2⟩
     (by decide)
     (fun _ => by
       show ((extractedRecords [fragA]).map Record.url).Nodup
       decide)⟩

/-! Claim C2: failure isolation. -/

/-- C2 counterexample: a fragment whose url resolves but whose `<time>`
element lacks the `datetime` attribute.  Reading the attribute raises, the
`except` of lines 190-192 catches it and `continue`s, and the fragment
yields no row at all — rather than a row with `created_at = "Unknown"` as
the claim states. -/
theorem isolation_counterexample :
    tweet_url badTimeFrag = some "https://x.com/u/a/status/9" ∧
    extractFragment badTimeFrag = Except.error () ∧
    stepAccum [] [badTimeFrag] = [] :=
  ⟨rfl, rfl, rfl⟩

/-- C2 amended: a fragment whose extraction raises is dropped whole — the
failure is isolated to that fragment, the rest of the snapshot is still
merged; and defaults apply when a field's source element is absent (no
exception), e.g. a fragment without a `<time>` element yields its row with
`created_at = "Unknown"`. -/
theorem isolation_amended :
    (∀ (df : List Record) (a b : List Fragment) (f : Fragment),
        extractFragment f = Except.error () →
        new_tweet_data df (a ++ f :: b) = new_tweet_data df (a ++ b)) ∧
    (∀ (f : Fragment) (u : String),
        tweet_url f = some u → f.timeTag = none →
        extractFragment f = Except.ok (some (mkRecord f u "Unknown"))) := by
  constructor
  · intro df a b f hf
    unfold new_tweet_data
    congr 1
    unfold extractedRecords
    rw [List.filterMap_append, List.filterMap_append,
      List.filterMap_cons_none (by rw [hf])]
  · intro f u hu ht
    simp only [extractFragment, created_at, ht, hu]

/-- C2 amended witness: the erroring fragment is dropped from a concrete
snapshot, and a concrete fragment without a `<time>` element yields its row
with the default creation time. -/
theorem isolation_amended_witness :
    new_tweet_data [] ([] ++ badTimeFrag :: []) = new_tweet_data [] ([] ++ []) ∧
    extractFragment fragA =
      Except.ok (some (mkRecord fragA "https://x.com/u/a/status/1" "Unknown")) :=
  ⟨isolation_amended.1 [] [] [] badTimeFrag rfl,
   isolation_amended.2 fragA "https://x.com/u/a/status/1" rfl rfl⟩

/-! Claim C4: url resolution. -/

/-- C4 counterexample: a fragment whose permalink target is already an
absolute URL gets the origin prefixed anyway (line 122 prefixes
unconditionally), so the target is not kept as is. -/
theorem url_resolution_counterexample :
    tweet_url absFrag = some "https://x.comhttps://x.com/u/b/status/2" ∧
    ¬ tweet_url absFrag = some "https://x.com/u/b/status/2" :=
  ⟨rfl, by decide⟩

/-- C4 amended: the url is taken from the first link-like child whose target
contains the permalink marker `"/status/"`, and the site origin is prefixed
unconditionally — also when the target is already absolute. -/
theorem url_resolution_amended :
    ∀ (a b : List ATag) (t : ATag) (h : String) (tt : Option TimeTag)
      (tid lk rt rp lg : Option String),
      t.href = some h → strHas h "/status/" = true →
      (∀ t' ∈ a, ∀ h', t'.href = some h' → strHas h' "/status/" = false) →
      tweet_url ⟨a ++ t :: b, tt, tid, lk, rt, rp, lg⟩ =
        some ("https://x.com" ++ h) := by
  intro a b t h tt tid lk rt rp lg hhref hstat hnone
  unfold tweet_url statusHref
  show ((List.filterMap ATag.href (a ++ t :: b)).find?
      (fun h => strHas h "/status/")).map (fun h => "https://x.com" ++ h) = _
  rw [List.filterMap_append, List.find?_append]
  have h1 : (List.filterMap ATag.href a).find?
      (fun h => strHas h "/status/") = none := by
    apply List.find?_eq_none.mpr
    intro x hx
    obtain ⟨t', ht', hx'⟩ := List.mem_filterMap.mp hx
    simp [hnone t' ht' x hx']
  rw [h1, Option.none_or, List.filterMap_cons_some hhref,
    @List.find?_cons_of_pos String (fun s => strHas s "/status/") h
      (List.filterMap ATag.href b) hstat]
  rfl

/-- C4 amended witness: a snapshot fragment whose first anchor has no href
and whose second anchor is the permalink. -/
theorem url_resolution_amended_witness :
    tweet_url ⟨[⟨none, "x", "x"⟩] ++ (⟨some "/u/c/status/3", "", ""⟩ : ATag)
        :: [], none, none, none, none, none, none⟩ =
      some ("https://x.com" ++ "/u/c/status/3") :=
  url_resolution_amended [⟨none, "x", "x"⟩] [] ⟨some "/u/c/status/3", "", ""⟩
    "/u/c/status/3" none none none none none none rfl (by decide)
    (by
      intro t' ht' h' hh'
      rw [List.mem_singleton] at ht'
      subst ht'
      simp at hh')

/-! Claim C5: the public contract. -/

/-- C5 counterexample: the function's formal parameter list (line 36) is
exactly `(target_url, env_suffix)`; no stall-timeout, scroll-step or
scroll-pause parameter exists, so none of them is caller-configurable. -/
theorem contract_counterexample :
    url_scraper_params = ["target_url", "env_suffix"] ∧
    ¬ "stallTimeout" ∈ url_scraper_params ∧
    ¬ "scrollStep" ∈ url_scraper_params ∧
    ¬ "scrollPause" ∈ url_scraper_params := by
  refine ⟨rfl, ?_, ?_, ?_⟩ <;> decide

/-- C5 amended: the contract is `url_scraper(target_url, env_suffix)`; the
stall timeout (60 s), scroll step (3000 px) and scroll pause (5 s) are fixed
constants inside the function, and the loop always runs with exactly those
constants. -/
theorem contract_amended :
    max_wait_time = 60 ∧ scroll_step = 3000 ∧ SCROLL_PAUSE_TIME = 5 ∧
    url_scraper_params = ["target_url", "env_suffix"] ∧
    ∀ (session : Nat → List Fragment) (t₀ fuel : Nat),
      url_scraper_loop session t₀ fuel =
        runLoop 5 60 session fuel 0 (initState t₀) :=
  ⟨rfl, rfl, rfl, rfl, fun _ _ _ => rfl⟩

/-! Claim C8: the result columns. -/

lemma unionColumns_initial :
    unionColumns initial_columns record_columns = record_columns := by decide

lemma unionColumns_record :
    unionColumns record_columns record_columns = record_columns := by decide

/-- Column bookkeeping across one iteration: a merge that appends nothing
leaves the columns alone, and any nonempty merge widens them to the full
ten-column list. -/
lemma iterate_columns_inv (pause maxWait : Nat) (frags : List Fragment)
    (s : LoopState)
    (h : s.columns =
      if s.tweet_df.isEmpty then initial_columns else record_columns) :
    (iterate pause maxWait frags s).1.columns =
      if (iterate pause maxWait frags s).1.tweet_df.isEmpty then
        initial_columns
      else record_columns := by
  rw [iterate_fst_columns, iterate_fst_tweet_df]
  cases hnew : (new_tweet_data s.tweet_df frags).isEmpty with
  | true =>
    rw [if_pos rfl, List.isEmpty_iff.mp hnew, List.append_nil]
    exact h
  | false =>
    have hne : ¬ new_tweet_data s.tweet_df frags = [] := by
      intro hc
      rw [hc] at hnew
      simp at hnew
    have happ : (s.tweet_df ++ new_tweet_data s.tweet_df frags).isEmpty
        = false := by
      cases hc : (s.tweet_df ++ new_tweet_data s.tweet_df frags).isEmpty with
      | false => rfl
      | true => exact absurd (List.append_eq_nil.mp (List.isEmpty_iff.mp hc)).2 hne
    rw [happ]
    simp only [Bool.false_eq_true, if_false]
    cases hdf : s.tweet_df.isEmpty with
    | true =>
      rw [hdf, if_pos rfl] at h
      rw [h]
      exact unionColumns_initial
    | false =>
      rw [hdf] at h
      simp only [Bool.false_eq_true, if_false] at h
      rw [h]
      exact unionColumns_record

/-- C8 counterexample: a run in which no record is ever added returns the
three-column DataFrame created on line 97 — `pd.concat` (line 199) is what
introduces the other seven columns, and it only runs on a nonempty merge, so
the returned table does not have the ten claimed columns. -/
theorem columns_counterexample :
    ∃ final, runLoop 1 0 (fun _ => []) 1 0 (initState 0) = some final ∧
      final.columns = initial_columns ∧
      ¬ final.columns = record_columns := by
  refine ⟨⟨[], initial_columns, 0, 0, 1⟩, by decide, rfl, by decide⟩

/-- C8 amended: the returned table has exactly the ten columns Tweet URL,
Created At, Text, Tweet ID, Likes, Retweets, Replies, Hashtags, Mentions,
URLs whenever at least one record was added; on a run that never adds a
record it has exactly the three initial columns Tweet URL, Created At,
Text. -/
theorem columns_amended :
    ∀ (pause maxWait : Nat) (session : Nat → List Fragment)
      (fuel t₀ : Nat) (final : LoopState),
      runLoop pause maxWait session fuel 0 (initState t₀) = some final →
      final.columns =
        if final.tweet_df.isEmpty then initial_columns else record_columns := by
  intro pause maxWait session fuel t₀ final hrun
  exact runLoop_invariant pause maxWait session
    (fun s => s.columns =
      if s.tweet_df.isEmpty then initial_columns else record_columns)
    (fun i s hP => iterate_columns_inv pause maxWait (session i) s hP)
    fuel 0 (initState t₀) final hrun rfl

/-- C8 amended witness: the empty run keeps the three initial columns. -/
theorem columns_amended_witness :
    LoopState.columns ⟨[], initial_columns, 0, 0, 1⟩ =
      (if (LoopState.tweet_df ⟨[], initial_columns, 0, 0, 1⟩).isEmpty then
        initial_columns
       else record_columns) :=
  columns_amended 1 0 (fun _ => []) 1 0 ⟨[], initial_columns, 0, 0, 1⟩
    (by decide)

/-! Claim C9: guaranteed session release. -/

/-- C9.  On every exit path that reaches the `try` block after the driver is
created on line 48 — the normal stall-timeout return of line 212 as well as
any exception raised inside the block — the `finally` of lines 214-215 runs
`driver.quit()` before the value or the exception reaches the caller. -/
theorem session_release :
    ∀ p, Event.driverCreated ∈ url_scraper_events p →
      url_scraper_events p =
        [Event.driverCreated, Event.driverQuit, Event.returned] ∨
      url_scraper_events p =
        [Event.driverCreated, Event.driverQuit, Event.raised] := by
  intro p hp
  cases p with
  | credentialsMissing => simp [url_scraper_events] at hp
  | loopReturn final => exact Or.inl rfl
  | sessionException => exact Or.inr rfl

/-- C9 witness: the exception path quits the driver before propagating. -/
theorem session_release_witness :
    url_scraper_events ExitPath.sessionException =
        [Event.driverCreated, Event.driverQuit, Event.returned] ∨
    url_scraper_events ExitPath.sessionException =
        [Event.driverCreated, Event.driverQuit, Event.raised] :=
  session_release ExitPath.sessionException (by decide)

/-! Claim C10: every stored url is the origin plus the raw target. -/

lemma extractFragment_ok_url {f : Fragment} {r : Record}
    (h : extractFragment f = Except.ok (some r)) :
    ∃ v, statusHref f = some v ∧ r.url = "https://x.com" ++ v := by
  unfold extractFragment at h
  cases hca : created_at f with
  | error e =>
    rw [hca] at h
    exact Except.noConfusion h
  | ok ca =>
    rw [hca] at h
    cases hsh : statusHref f with
    | none =>
      rw [show tweet_url f = none from by unfold tweet_url; rw [hsh]; rfl] at h
      have h2 : (none : Option Record) = some r := by injection h
      exact Option.noConfusion h2
    | some v =>
      rw [show tweet_url f = some ("https://x.com" ++ v) from by
        unfold tweet_url; rw [hsh]; rfl] at h
      have h2 : some (mkRecord f ("https://x.com" ++ v) ca) = some r := by
        injection h
      have h3 : mkRecord f ("https://x.com" ++ v) ca = r := by injection h2
      refine ⟨v, rfl, ?_⟩
      rw [← h3]
      rfl

lemma mem_extractedRecords {frags : List Fragment} {r : Record}
    (h : r ∈ extractedRecords frags) :
    ∃ f ∈ frags, extractFragment f = Except.ok (some r) := by
  obtain ⟨f, hf, hval⟩ := List.mem_filterMap.mp h
  refine ⟨f, hf, ?_⟩
  cases hef : extractFragment f with
  | error e =>
    rw [hef] at hval
    exact Option.noConfusion hval
  | ok o =>
    cases o with
    | none =>
      rw [hef] at hval
      exact Option.noConfusion hval
    | some r' =>
      rw [hef] at hval
      have hrr : r' = r := by injection hval
      rw [hrr]

/-- C10.  Every record the loop returns has `url` equal to the literal
origin `"https://x.com"` concatenated with the raw href of the fragment's
first permalink anchor, taken verbatim; in particular every returned url
starts with `"https://x.com"` whether or not the target was already
absolute. -/
theorem url_origin :
    ∀ (pause maxWait : Nat) (session : Nat → List Fragment)
      (fuel t₀ : Nat) (final : LoopState),
      runLoop pause maxWait session fuel 0 (initState t₀) = some final →
      ∀ r ∈ final.tweet_df, ∃ j f v, f ∈ session j ∧
        statusHref f = some v ∧ r.url = "https://x.com" ++ v := by
  intro pause maxWait session fuel t₀ final hrun
  refine runLoop_invariant pause maxWait session
    (fun s => ∀ r ∈ s.tweet_df, ∃ j f v, f ∈ session j ∧
      statusHref f = some v ∧ r.url = "https://x.com" ++ v)
    ?_ fuel 0 (initState t₀) final hrun ?_
  · intro i s hP r hr
    rw [iterate_fst_tweet_df] at hr
    rcases List.mem_append.mp hr with hold | hnew
    · exact hP r hold
    · have hex : r ∈ extractedRecords (session i) :=
        (mem_new_tweet_data.mp hnew).1
      obtain ⟨f, hf, hok⟩ := mem_extractedRecords hex
      obtain ⟨v, hv, hurl⟩ := extractFragment_ok_url hok
      exact ⟨i, f, v, hf, hv, hurl⟩
  · intro r hr
    exact absurd hr (List.not_mem_nil r)

/-- C10 witness: the single record of a concrete run carries the origin
concatenated with the fragment's raw relative target. -/
theorem url_origin_witness :
    ∃ (j : Nat) (f : Fragment) (v : String), f ∈ [fragA] ∧
      statusHref f = some v ∧
      (mkRecord fragA "https://x.com/u/a/status/1" "Unknown").url =
        "https://x.com" ++ v :=
  url_origin 1 0 (fun _ => [fragA]) 2 0
    ⟨[mkRecord fragA "https://x.com/u/a/status/1" "Unknown"],
     unionColumns initial_columns record_columns, 1, 1, 2⟩ (by decide)
    (mkRecord fragA "https://x.com/u/a/status/1" "Unknown") (by decide)

end SMScraper
